import Mathlib

/-!
Shallow embedding of `psp-gfx` (crates/psp-gfx/src/lib.rs), a safety layer
over the PSP GPU.  Every driver call (`sceGu*`, `sceGum*`, `sceDisplay*`)
the library can issue is one constructor of `GuCmd`; each library operation
is embedded as the list of commands it records, in source order.  The
statically-checked frame lifecycle (exclusive `&mut` borrow of `PspGfx`,
`Frame` consumed on `finish`, `Drop` on scope exit, transient buffers whose
lifetime is tied to the frame) is embedded as a program grammar (`FrameOp`,
`FrameProg`, `Prog`) whose shape is exactly the set of client programs the
borrow checker accepts, together with trace-level scanners that check the
lifecycle invariants on the emitted command stream.
-/

namespace PspGfxModel

/-- Screen width in pixels, the psp crate constant `SCREEN_WIDTH` used by `init`. -/
def SCREEN_WIDTH : Nat := 480

/-- Screen height in pixels, the psp crate constant `SCREEN_HEIGHT` used by `init`. -/
def SCREEN_HEIGHT : Nat := 272

/-- Framebuffer row stride in pixels, the psp crate constant `BUF_WIDTH` used by `init`. -/
def BUF_WIDTH : Nat := 512

/-- The two texture pixel formats `init` requests from the vram allocator:
`Psm8888` (32-bit color) for the two color buffers and `Psm4444` (16-bit)
for the depth buffer. -/
inductive TexturePixelFormat where
  | psm8888
  | psm4444
deriving DecidableEq

/-- Bytes per pixel of a texture pixel format (4 for `Psm8888`, 2 for `Psm4444`). -/
def TexturePixelFormat.bytes : TexturePixelFormat → Nat
  | .psm8888 => 4
  | .psm4444 => 2

/-- Modelled from the spec: the packed 32-bit color value.  `color.rs` is not
part of the provided sources; the spec only requires a total conversion
`as_abgr` to the hardware byte order, so the color is modelled as the packed
value itself. -/
structure Color32 where
  abgr32 : Nat
deriving DecidableEq

/-- The hardware byte-order conversion used at every color operand site
(`color.as_abgr()` in the source). -/
def Color32.as_abgr (c : Color32) : Nat := c.abgr32

/-- Modelled from the spec: `rect.rs` is not part of the provided sources;
the spec states a rectangle is four integer fields (x, y, width, height). -/
structure Rect where
  x : Int
  y : Int
  w : Int
  h : Int
deriving DecidableEq

/-- The hardware primitive kinds of the psp crate enum `GuPrimitive`. -/
inductive GuPrimitive where
  | points
  | lines
  | lineStrip
  | triangles
  | triangleStrip
  | triangleFan
  | sprites
deriving DecidableEq

/-- Modelled from the spec: `buffer.rs`, `vertex.rs` and `index.rs` are not
part of the provided sources; the spec gives the uniform buffer contract
`length()` and `elementTypeTag()` (the hardware format bitmask `vtype()`).
A buffer is modelled by those two observables. -/
structure Buf where
  len : Nat
  vtype : Nat
deriving DecidableEq

/-- Which memory a draw call reads its vertex data from: a caller-owned
persistent buffer, or the transient scratch buffer with local index `idx`
acquired by frame number `frame` (frames are numbered from 1 in traces). -/
inductive BufSrc where
  | persistent
  | transient (frame : Nat) (idx : Nat)
deriving DecidableEq

/-- One hardware driver call, exactly the call vocabulary of
`crates/psp-gfx/src/lib.rs`.  `guSync` stands for
`sceGuSync(Finish, Wait)` (both call sites pass those arguments);
`guClear` carries the `COLOR_BUFFER_BIT` / `DEPTH_BUFFER_BIT` flags;
`guGetMemory` is the scratch acquisition performed by
`TransientBuffer::get_memory_static`. -/
inductive GuCmd where
  | guInit
  | gumLoadIdentity
  | guStart
  | guDrawBuffer (fmt : TexturePixelFormat) (fbp : Nat) (bufWidth : Nat)
  | guDispBuffer (width : Nat) (height : Nat) (fbp : Nat) (bufWidth : Nat)
  | guDepthBuffer (zbp : Nat) (bufWidth : Nat)
  | guOffset (x : Nat) (y : Nat)
  | guViewport (cx : Nat) (cy : Nat) (width : Nat) (height : Nat)
  | guDepthRange (near : Nat) (far : Nat)
  | guScissor (x : Int) (y : Int) (w : Int) (h : Int)
  | guEnableScissorTest
  | guFinish
  | guSync
  | displayWaitVblankStart
  | guDisplayOn
  | guSwapBuffers
  | guClearColor (abgr : Nat)
  | guClearDepth (depth : Nat)
  | guClear (colorBit : Bool) (depthBit : Bool)
  | guTexFunc (effect : Nat) (colorComponent : Nat)
  | guShadeModel (model : Nat)
  | guColor (abgr : Nat)
  | guDrawArray (prim : GuPrimitive) (vtype : Nat) (count : Nat) (indexed : Bool) (src : BufSrc)
  | guGetMemory (bytes : Nat)
deriving DecidableEq

/-- The commands recorded by `PspGfx::init` after its three vram
allocations, in source order: `sceGuInit`, `sceGumLoadIdentity`,
`sceGuStart`, draw/display/depth buffer registration, offset, viewport,
depth range, scissor, scissor-test enable, then `sceGuFinish`,
`sceGuSync(Finish, Wait)`, `sceDisplayWaitVblankStart`,
`sceGuDisplay(true)`. -/
def initCmds (fbp0 fbp1 zbp : Nat) : List GuCmd :=
  [GuCmd.guInit,
   GuCmd.gumLoadIdentity,
   GuCmd.guStart,
   GuCmd.guDrawBuffer TexturePixelFormat.psm8888 fbp0 BUF_WIDTH,
   GuCmd.guDispBuffer SCREEN_WIDTH SCREEN_HEIGHT fbp1 BUF_WIDTH,
   GuCmd.guDepthBuffer zbp BUF_WIDTH,
   GuCmd.guOffset (2048 - SCREEN_WIDTH / 2) (2048 - SCREEN_HEIGHT / 2),
   GuCmd.guViewport 2048 2048 SCREEN_WIDTH SCREEN_HEIGHT,
   GuCmd.guDepthRange 65535 0,
   GuCmd.guScissor 0 0 (Int.ofNat SCREEN_WIDTH) (Int.ofNat SCREEN_HEIGHT),
   GuCmd.guEnableScissorTest,
   GuCmd.guFinish,
   GuCmd.guSync,
   GuCmd.displayWaitVblankStart,
   GuCmd.guDisplayOn]

/-- The single command recorded by `PspGfx::start_frame`: `sceGuStart`. -/
def startFrameCmds : List GuCmd := [GuCmd.guStart]

/-- The body of `Frame::finish_non_consuming`: `sceGuFinish`,
`sceGuSync(Finish, Wait)`, `sceDisplayWaitVblankStart`,
`sceGuSwapBuffers`, in that order. -/
def finishNonConsuming : List GuCmd :=
  [GuCmd.guFinish, GuCmd.guSync, GuCmd.displayWaitVblankStart, GuCmd.guSwapBuffers]

/-- Commands run by the explicit `Frame::finish(self)`: it calls
`finish_non_consuming` once, then wraps `self` in `ManuallyDrop` so the
`Drop` impl does not run the sequence a second time. -/
def Frame.finishCmds : List GuCmd := finishNonConsuming

/-- Commands run by `impl Drop for Frame` (implicit scope exit): it calls
`finish_non_consuming` once. -/
def Frame.dropCmds : List GuCmd := finishNonConsuming

/-- How the `Open` state of a frame is exited: the explicit consuming
`finish` call, or the implicit scope-exit `Drop`. -/
inductive ExitKind where
  | finish
  | drop
deriving DecidableEq

/-- The close-sequence commands of an exit kind. -/
def ExitKind.cmds : ExitKind → List GuCmd
  | .finish => Frame.finishCmds
  | .drop => Frame.dropCmds

/-- One operation a client can invoke on a live `Frame`, mirroring the
public methods of `Frame` in the source.  Draws on persistent buffers carry
the observables of the buffer (`Buf`); `getMemory` is `Frame::get_memory`
staging `bytes` bytes of caller data into the scratch region of the frame and
returning a `TransientBuffer`; `drawTransient` is `draw_array` applied to
the transient buffer with frame-local index `idx` (the borrow checker only
lets a client name a transient buffer of the frame it was acquired from,
which is why the grammar carries a frame-local index). -/
inductive FrameOp where
  | clearColor (c : Color32)
  | clearDepth (depth : Nat)
  | clearColorDepth (c : Color32) (depth : Nat)
  | setTextureFunction (effect : Nat) (colorComponent : Nat)
  | setShadingModel (model : Nat)
  | setColor (c : Color32)
  | setScissor (r : Rect)
  | getMemory (bytes : Nat)
  | drawArray (prim : GuPrimitive) (vbuf : Buf)
  | drawArrayIndexed (prim : GuPrimitive) (vbuf : Buf) (ibuf : Buf)
  | drawTransient (prim : GuPrimitive) (vtype : Nat) (len : Nat) (idx : Nat)
deriving DecidableEq

/-- The commands a frame operation records, straight from the source.
`frame` is the number of the enclosing frame, used only to stamp the
provenance of transient-buffer reads in the trace.
  * `clear_color`: `sceGuClearColor(color.as_abgr())` then
    `sceGuClear(COLOR_BUFFER_BIT)`;
  * `clear_depth`: `sceGuClearDepth(depth)` then
    `sceGuClear(DEPTH_BUFFER_BIT)`;
  * `clear_color_depth`: `sceGuClearColor`, `sceGuClearDepth`, then one
    `sceGuClear(COLOR_BUFFER_BIT | DEPTH_BUFFER_BIT)`;
  * `set_texture_function`: `sceGuTexFunc`;
  * `set_shading_model`: `sceGuShadeModel`;
  * `set_color`: `sceGuColor(color.as_abgr())`;
  * `set_scissor`: `sceGuScissor(r.x, r.y, r.w, r.h)`;
  * `get_memory`: the `sceGuGetMemory` scratch carve-out;
  * `draw_array`: `sceGuDrawArray(prim, V::vtype(), vertex_buf.len(), null,
    ptr)` — count is the length of the vertex buffer, not indexed;
  * `draw_array_indexed`: `sceGuDrawArray(prim, V::vtype() | I::vtype(),
    index_buf.len(), index_ptr, vertex_ptr)` — count is the length of the
    index buffer. -/
def FrameOp.trace (frame : Nat) : FrameOp → List GuCmd
  | .clearColor c => [GuCmd.guClearColor c.as_abgr, GuCmd.guClear true false]
  | .clearDepth d => [GuCmd.guClearDepth d, GuCmd.guClear false true]
  | .clearColorDepth c d =>
      [GuCmd.guClearColor c.as_abgr, GuCmd.guClearDepth d, GuCmd.guClear true true]
  | .setTextureFunction e cc => [GuCmd.guTexFunc e cc]
  | .setShadingModel m => [GuCmd.guShadeModel m]
  | .setColor c => [GuCmd.guColor c.as_abgr]
  | .setScissor r => [GuCmd.guScissor r.x r.y r.w r.h]
  | .getMemory bytes => [GuCmd.guGetMemory bytes]
  | .drawArray prim vbuf =>
      [GuCmd.guDrawArray prim vbuf.vtype vbuf.len false BufSrc.persistent]
  | .drawArrayIndexed prim vbuf ibuf =>
      [GuCmd.guDrawArray prim (Nat.lor vbuf.vtype ibuf.vtype) ibuf.len true BufSrc.persistent]
  | .drawTransient prim vt l idx =>
      [GuCmd.guDrawArray prim vt l false (BufSrc.transient frame idx)]

/-- The concatenated trace of a list of frame operations. -/
def opsTrace (frame : Nat) : List FrameOp → List GuCmd
  | [] => []
  | op :: rest => FrameOp.trace frame op ++ opsTrace frame rest

/-- One complete frame as a client can write it: a list of operations on
the live `Frame`, and the way its scope is exited.  The borrow checker
forces exactly this shape: `start_frame` takes `&mut PspGfx`, so all
operations between start and exit belong to the one live frame, and the
frame is exited exactly once (either by consuming `finish` or by `Drop`). -/
structure FrameProg where
  ops : List FrameOp
  exit : ExitKind
deriving DecidableEq

/-- Trace of one frame: `sceGuStart`, the recorded operations, then the
close sequence of its exit kind. -/
def FrameProg.trace (frame : Nat) (f : FrameProg) : List GuCmd :=
  startFrameCmds ++ opsTrace frame f.ops ++ ExitKind.cmds f.exit

/-- Trace of a list of frames, numbering them `frame`, `frame + 1`, …  The
frames are strictly sequential because each `Frame` exclusively borrows the
`PspGfx` context: the next `start_frame` cannot be called until the
handle of the previous frame is gone. -/
def framesTrace (frame : Nat) : List FrameProg → List GuCmd
  | [] => []
  | f :: rest => FrameProg.trace frame f ++ framesTrace (frame + 1) rest

/-- A whole client program accepted by the borrow checker: `init` once,
then a sequence of frames. -/
structure Prog where
  frames : List FrameProg
deriving DecidableEq

/-- Modelled from the spec: the external video-memory allocator
(`psp::vram_alloc`, not part of the provided sources).  The spec describes
it as serving fixed-shape allocation requests (width, height, pixel
format) from a fixed pool, returning an opaque base address; it is
modelled as a linear arena with a high-water mark. -/
structure VramAllocator where
  used : Nat
  capacity : Nat
deriving DecidableEq

/-- Modelled from the spec: one allocation request against the arena;
fails when the pool cannot satisfy it. -/
def VramAllocator.alloc (a : VramAllocator) (bytes : Nat) :
    Option (Nat × VramAllocator) :=
  if a.used + bytes ≤ a.capacity then
    some (a.used, { used := a.used + bytes, capacity := a.capacity })
  else
    none

/-- Allocation of `width * height` pixels of format `fmt`, the shape of
`alloc_texture_pixels` as `init` calls it. -/
def VramAllocator.allocTexturePixels (a : VramAllocator)
    (width height : Nat) (fmt : TexturePixelFormat) :
    Option (Nat × VramAllocator) :=
  a.alloc (width * height * fmt.bytes)

/-- The error taxonomy of the layer: the only failure is running out of
video memory during `init` (in the source this surfaces as a fatal panic
inside the allocator, not as a recoverable value). -/
inductive GfxError where
  | outOfVideoMemory
deriving DecidableEq

/-- The graphics context: the three region base addresses allocated by
`init` (front color `fbp0`, back color `fbp1`, depth `zbp`). -/
structure PspGfx where
  fbp0 : Nat
  fbp1 : Nat
  zbp : Nat
deriving DecidableEq

/-- `PspGfx::init`: three fixed-size vram allocations (color `Psm8888`,
color `Psm8888`, depth `Psm4444`, each `BUF_WIDTH × SCREEN_HEIGHT`
pixels), failing fatally if any one cannot be satisfied, then the one-time
pipeline setup command sequence `initCmds`. -/
def PspGfx.init (a : VramAllocator) : Except GfxError (PspGfx × List GuCmd) :=
  match a.allocTexturePixels BUF_WIDTH SCREEN_HEIGHT TexturePixelFormat.psm8888 with
  | none => Except.error GfxError.outOfVideoMemory
  | some (fbp0, a1) =>
    match a1.allocTexturePixels BUF_WIDTH SCREEN_HEIGHT TexturePixelFormat.psm8888 with
    | none => Except.error GfxError.outOfVideoMemory
    | some (fbp1, a2) =>
      match a2.allocTexturePixels BUF_WIDTH SCREEN_HEIGHT TexturePixelFormat.psm4444 with
      | none => Except.error GfxError.outOfVideoMemory
      | some (zbp, _) =>
        Except.ok ({ fbp0 := fbp0, fbp1 := fbp1, zbp := zbp }, initCmds fbp0 fbp1 zbp)

/-- Run a whole program against an allocator: `init`, then the frames
(numbered from 1).  The result is the full command trace the hardware
sees, or the fatal init error. -/
def Prog.run (p : Prog) (a : VramAllocator) : Except GfxError (List GuCmd) :=
  match PspGfx.init a with
  | Except.error e => Except.error e
  | Except.ok (_, cmds) => Except.ok (cmds ++ framesTrace 1 p.frames)

/-- Bytes of one color buffer (`BUF_WIDTH × SCREEN_HEIGHT × 4`). -/
def colorBufferBytes : Nat := BUF_WIDTH * SCREEN_HEIGHT * 4

/-- Bytes of the depth buffer (`BUF_WIDTH × SCREEN_HEIGHT × 2`). -/
def depthBufferBytes : Nat := BUF_WIDTH * SCREEN_HEIGHT * 2

/-- Is a command one of the four close-sequence steps
(`sceGuFinish`, `sceGuSync`, `sceDisplayWaitVblankStart`,
`sceGuSwapBuffers`)? -/
def isCloseCmd : GuCmd → Bool
  | GuCmd.guFinish => true
  | GuCmd.guSync => true
  | GuCmd.displayWaitVblankStart => true
  | GuCmd.guSwapBuffers => true
  | _ => false

/-- Scanner for frame exclusivity over a command trace.  The boolean is
whether a frame is currently alive (opened by `sceGuStart`, fully closed by
the `sceGuSwapBuffers` that ends the close sequence).  The scan returns
`none` if a second frame is opened while one is alive, otherwise `some`
of the final aliveness. -/
def framesExclusive : Bool → List GuCmd → Option Bool
  | b, [] => some b
  | b, GuCmd.guStart :: rest => if b then none else framesExclusive true rest
  | _, GuCmd.guSwapBuffers :: rest => framesExclusive false rest
  | b, _ :: rest => framesExclusive b rest

/-- Scanner for command-list bracketing.  The boolean is whether a hardware
command list is currently open (`sceGuStart` opens, `sceGuFinish` closes).
The scan returns `none` on a `sceGuStart` while a list is open or a
`sceGuFinish` while none is, otherwise `some` of the final openness. -/
def listBracket : Bool → List GuCmd → Option Bool
  | b, [] => some b
  | b, GuCmd.guStart :: rest => if b then none else listBracket true rest
  | b, GuCmd.guFinish :: rest => if b then listBracket false rest else none
  | b, _ :: rest => listBracket b rest

/-- Scanner for transient-buffer reads.  `cur` is the number of the frame
currently recording (0 before any frame; each `sceGuStart` begins the next
frame and reclaims the scratch region, so the count of live scratch
buffers `avail` resets to 0).  `sceGuGetMemory` carves one more scratch
buffer.  A draw reading transient buffer `(f, idx)` is valid only if it
was carved by the currently open frame (`f = cur`) and exists
(`idx < avail`); otherwise the whole scan is `false`. -/
def noStaleReads : Nat → Nat → List GuCmd → Bool
  | cur, _, GuCmd.guStart :: rest => noStaleReads (cur + 1) 0 rest
  | cur, avail, GuCmd.guGetMemory _ :: rest => noStaleReads cur (avail + 1) rest
  | cur, avail, GuCmd.guDrawArray _ _ _ _ (BufSrc.transient f idx) :: rest =>
      if f = cur ∧ idx < avail then noStaleReads cur avail rest else false
  | _, _, [] => true
  | cur, avail, _ :: rest => noStaleReads cur avail rest

/-- Number of scratch acquisitions (`get_memory` calls) in a list of frame
operations. -/
def memCount : List FrameOp → Nat
  | [] => 0
  | FrameOp.getMemory _ :: rest => memCount rest + 1
  | _ :: rest => memCount rest

/-- Well-formedness of a frame body as the borrow checker enforces it: a
transient draw can only name a `TransientBuffer` binding already acquired
earlier in the same frame (`idx < avail`). -/
def wfOps : Nat → List FrameOp → Bool
  | _, [] => true
  | avail, FrameOp.getMemory _ :: rest => wfOps (avail + 1) rest
  | avail, FrameOp.drawTransient _ _ _ idx :: rest =>
      if idx < avail then wfOps avail rest else false
  | avail, _ :: rest => wfOps avail rest

/-- A program is well formed when every frame body is. -/
def wfProg (p : Prog) : Bool :=
  p.frames.all (fun f => wfOps 0 f.ops)

/-- Modelled from the spec: the GPU-side scoping of pipeline state (the
hardware is an external collaborator).  Per the spec and the comments in the source, the texture-function setting persists across frame boundaries
while the shading-model setting only affects the current frame; the
interpreter therefore keeps `texFunc` across `sceGuStart` and resets
`shadeModel` to its hardware default (`none`) at each `sceGuStart`. -/
structure HwPipelineState where
  texFunc : Option (Nat × Nat)
  shadeModel : Option Nat
deriving DecidableEq

/-- One hardware step of the pipeline-state interpreter. -/
def HwPipelineState.step (s : HwPipelineState) : GuCmd → HwPipelineState
  | GuCmd.guStart => { s with shadeModel := none }
  | GuCmd.guTexFunc e cc => { s with texFunc := some (e, cc) }
  | GuCmd.guShadeModel m => { s with shadeModel := some m }
  | _ => s

/-- Run the pipeline-state interpreter over a command trace. -/
def runHw (s : HwPipelineState) (cmds : List GuCmd) : HwPipelineState :=
  List.foldl HwPipelineState.step s cmds

/-- A concrete well-formed two-frame program: each frame stages some data
into scratch memory and draws from the transient buffer it just acquired;
the first frame exits by explicit `finish`, the second by `Drop`. -/
def demoProg : Prog :=
  ⟨[⟨[FrameOp.getMemory 48, FrameOp.drawTransient GuPrimitive.triangles 3 3 0],
     ExitKind.finish⟩,
    ⟨[FrameOp.getMemory 24, FrameOp.drawTransient GuPrimitive.lines 3 2 0],
     ExitKind.drop⟩]⟩

/-- No frame operation records any of the four close-sequence commands:
the close sequence can only come from the exit of the frame. -/
theorem opsTrace_no_close (i : Nat) : ∀ (ops : List FrameOp),
    (opsTrace i ops).all (fun c => !(isCloseCmd c)) = true
  | [] => rfl
  | op :: more => by cases op <;> exact opsTrace_no_close i more

/-- Frame operations neither open a frame nor complete a close sequence,
so the frame-exclusivity scanner passes over them unchanged. -/
theorem framesExclusive_ops (i : Nat) :
    ∀ (ops : List FrameOp) (b : Bool) (rest : List GuCmd),
    framesExclusive b (opsTrace i ops ++ rest) = framesExclusive b rest
  | [], _, _ => rfl
  | op :: more, b, rest => by cases op <;> exact framesExclusive_ops i more b rest

/-- Frame operations neither start nor finish a command list, so the
bracketing scanner passes over them unchanged. -/
theorem listBracket_ops (i : Nat) :
    ∀ (ops : List FrameOp) (b : Bool) (rest : List GuCmd),
    listBracket b (opsTrace i ops ++ rest) = listBracket b rest
  | [], _, _ => rfl
  | op :: more, b, rest => by cases op <;> exact listBracket_ops i more b rest

/-- Inside the frame currently recording, a well-formed body only reads
transient buffers it has already acquired, so the stale-read scanner walks
through it, accumulating the scratch acquisitions. -/
theorem noStale_ops (i : Nat) :
    ∀ (ops : List FrameOp) (avail : Nat) (rest : List GuCmd),
    wfOps avail ops = true →
    noStaleReads i avail (opsTrace i ops ++ rest)
      = noStaleReads i (avail + memCount ops) rest
  | [], _, _, _ => rfl
  | FrameOp.clearColor c :: more, avail, rest, hwf =>
      noStale_ops i more avail rest hwf
  | FrameOp.clearDepth d :: more, avail, rest, hwf =>
      noStale_ops i more avail rest hwf
  | FrameOp.clearColorDepth c d :: more, avail, rest, hwf =>
      noStale_ops i more avail rest hwf
  | FrameOp.setTextureFunction e cc :: more, avail, rest, hwf =>
      noStale_ops i more avail rest hwf
  | FrameOp.setShadingModel m :: more, avail, rest, hwf =>
      noStale_ops i more avail rest hwf
  | FrameOp.setColor c :: more, avail, rest, hwf =>
      noStale_ops i more avail rest hwf
  | FrameOp.setScissor r :: more, avail, rest, hwf =>
      noStale_ops i more avail rest hwf
  | FrameOp.drawArray prim vbuf :: more, avail, rest, hwf =>
      noStale_ops i more avail rest hwf
  | FrameOp.drawArrayIndexed prim vbuf ibuf :: more, avail, rest, hwf =>
      noStale_ops i more avail rest hwf
  | FrameOp.getMemory b :: more, avail, rest, hwf => by
      have e : avail + memCount (FrameOp.getMemory b :: more)
          = avail + 1 + memCount more := by
        show avail + (memCount more + 1) = avail + 1 + memCount more
        omega
      rw [e]
      exact noStale_ops i more (avail + 1) rest hwf
  | FrameOp.drawTransient prim vt l idx :: more, avail, rest, hwf => by
      have hidx : idx < avail := by
        by_contra hc
        have h2 : (if idx < avail then wfOps avail more else false) = true := hwf
        rw [if_neg hc] at h2
        exact Bool.false_ne_true h2
      have h3 : wfOps avail more = true := by
        have h2 : (if idx < avail then wfOps avail more else false) = true := hwf
        rwa [if_pos hidx] at h2
      have step :
          noStaleReads i avail
              (opsTrace i (FrameOp.drawTransient prim vt l idx :: more) ++ rest)
            = noStaleReads i avail (opsTrace i more ++ rest) := by
        show (if i = i ∧ idx < avail
              then noStaleReads i avail (opsTrace i more ++ rest)
              else false)
            = noStaleReads i avail (opsTrace i more ++ rest)
        rw [if_pos ⟨rfl, hidx⟩]
      rw [step]
      exact noStale_ops i more avail rest h3

/-- The frame-exclusivity scan of any sequence of frames, started with no
frame alive, succeeds and ends with no frame alive: no second frame is
ever opened while one is alive, and each frame is fully closed. -/
theorem framesExclusive_frames :
    ∀ (fs : List FrameProg) (i : Nat),
    framesExclusive false (framesTrace i fs) = some false
  | [], _ => rfl
  | f :: more, i => by
      have hops := framesExclusive_ops i f.ops true
        (ExitKind.cmds f.exit ++ framesTrace (i + 1) more)
      have hexit : framesExclusive true
          (ExitKind.cmds f.exit ++ framesTrace (i + 1) more)
          = framesExclusive false (framesTrace (i + 1) more) := by
        cases f.exit <;> rfl
      calc framesExclusive false (framesTrace i (f :: more))
          = framesExclusive true
              ((opsTrace i f.ops ++ ExitKind.cmds f.exit) ++ framesTrace (i + 1) more) := rfl
        _ = framesExclusive true
              (opsTrace i f.ops ++ (ExitKind.cmds f.exit ++ framesTrace (i + 1) more)) := by
            rw [List.append_assoc]
        _ = framesExclusive false (framesTrace (i + 1) more) := by rw [hops, hexit]
        _ = some false := framesExclusive_frames more (i + 1)

/-- The command-list bracketing scan of any sequence of frames, started
with no list open, succeeds and ends with no list open. -/
theorem listBracket_frames :
    ∀ (fs : List FrameProg) (i : Nat),
    listBracket false (framesTrace i fs) = some false
  | [], _ => rfl
  | f :: more, i => by
      have hops := listBracket_ops i f.ops true
        (ExitKind.cmds f.exit ++ framesTrace (i + 1) more)
      have hexit : listBracket true
          (ExitKind.cmds f.exit ++ framesTrace (i + 1) more)
          = listBracket false (framesTrace (i + 1) more) := by
        cases f.exit <;> rfl
      calc listBracket false (framesTrace i (f :: more))
          = listBracket true
              ((opsTrace i f.ops ++ ExitKind.cmds f.exit) ++ framesTrace (i + 1) more) := rfl
        _ = listBracket true
              (opsTrace i f.ops ++ (ExitKind.cmds f.exit ++ framesTrace (i + 1) more)) := by
            rw [List.append_assoc]
        _ = listBracket false (framesTrace (i + 1) more) := by rw [hops, hexit]
        _ = some false := listBracket_frames more (i + 1)

/-- The stale-read scan of any well-formed sequence of frames succeeds:
every transient-buffer read in the whole trace reads a buffer carved by
the frame that is currently recording. -/
theorem noStale_frames :
    ∀ (fs : List FrameProg) (i avail : Nat),
    fs.all (fun f => wfOps 0 f.ops) = true →
    noStaleReads i avail (framesTrace (i + 1) fs) = true
  | [], _, _, _ => rfl
  | f :: more, i, avail, hwf => by
      have hsplit : wfOps 0 f.ops = true ∧ more.all (fun g => wfOps 0 g.ops) = true := by
        rw [List.all_cons] at hwf
        exact (Bool.and_eq_true _ _).mp hwf
      have h1 := hsplit.1
      have h2 := hsplit.2
      have hexit : ∀ (a : Nat),
          noStaleReads (i + 1) a
            (ExitKind.cmds f.exit ++ framesTrace (i + 1 + 1) more)
          = noStaleReads (i + 1) a (framesTrace (i + 1 + 1) more) := by
        intro a
        cases f.exit <;> rfl
      calc noStaleReads i avail (framesTrace (i + 1) (f :: more))
          = noStaleReads (i + 1) 0
              ((opsTrace (i + 1) f.ops ++ ExitKind.cmds f.exit)
                ++ framesTrace (i + 1 + 1) more) := rfl
        _ = noStaleReads (i + 1) 0
              (opsTrace (i + 1) f.ops
                ++ (ExitKind.cmds f.exit ++ framesTrace (i + 1 + 1) more)) := by
            rw [List.append_assoc]
        _ = noStaleReads (i + 1) (0 + memCount f.ops)
              (ExitKind.cmds f.exit ++ framesTrace (i + 1 + 1) more) :=
            noStale_ops (i + 1) f.ops 0 _ h1
        _ = noStaleReads (i + 1) (0 + memCount f.ops)
              (framesTrace (i + 1 + 1) more) := hexit _
        _ = true := noStale_frames more (i + 1) (0 + memCount f.ops) h2

/-- C1: for every frame, the trace of that frame is `sceGuStart`, the
recorded operations, then the four close-sequence steps — finish the
command list, wait for hardware completion of queued commands, wait for
the next vertical blank, swap the color buffers — exactly once, in that
fixed order, at the very end; no frame operation ever emits a
close-sequence step, and the explicit `finish` exit and the implicit
`Drop` exit run one and the same sequence (in the source, `finish`
consumes the handle via `ManuallyDrop` so the `Drop` impl cannot run it a
second time). -/
theorem close_sequence_exactly_once (f : FrameProg) (i : Nat) :
    FrameProg.trace i f
      = GuCmd.guStart :: (opsTrace i f.ops
          ++ [GuCmd.guFinish, GuCmd.guSync,
              GuCmd.displayWaitVblankStart, GuCmd.guSwapBuffers])
    ∧ (opsTrace i f.ops).all (fun c => !(isCloseCmd c)) = true
    ∧ ExitKind.cmds ExitKind.finish = finishNonConsuming
    ∧ ExitKind.cmds ExitKind.drop = finishNonConsuming := by
  refine ⟨?_, opsTrace_no_close i f.ops, rfl, rfl⟩
  obtain ⟨ops, ex⟩ := f
  cases ex <;> rfl

/-- C2: at most one frame is ever alive.  Over the trace of any sequence
of frames a client can legally write (the `&mut` borrow of the context
forces frames to be strictly sequential), the exclusivity scanner — which
fails if a `sceGuStart` occurs while a frame is alive, and retires a
frame only at the `sceGuSwapBuffers` completing its close sequence —
always succeeds and ends with no frame alive: frame N+1 is never opened
before the close sequence of frame N has fully completed. -/
theorem single_frame_at_a_time (fs : List FrameProg) (i : Nat) :
    framesExclusive false (framesTrace i fs) = some false :=
  framesExclusive_frames fs i

/-- C3: `draw_array_indexed` records exactly one draw command whose
element count is the length of the index buffer — for every vertex buffer
and every index buffer, so in particular when the index buffer has length
0 (a draw command with count 0 is still recorded) and when the index
buffer is longer than the vertex buffer (the count is passed through
unchecked; this layer never validates index values); the count never
depends on the vertex buffer, whose only contribution is its type tag
ORed into the vtype bitmask. -/
theorem draw_array_indexed_count (i : Nat) (prim : GuPrimitive) (vbuf ibuf : Buf) :
    FrameOp.trace i (FrameOp.drawArrayIndexed prim vbuf ibuf)
      = [GuCmd.guDrawArray prim (Nat.lor vbuf.vtype ibuf.vtype)
          ibuf.len true BufSrc.persistent] := rfl

/-- C4: `draw_array` records exactly one non-indexed draw command whose
element count is the length of the vertex buffer. -/
theorem draw_array_count (i : Nat) (prim : GuPrimitive) (vbuf : Buf) :
    FrameOp.trace i (FrameOp.drawArray prim vbuf)
      = [GuCmd.guDrawArray prim vbuf.vtype vbuf.len false BufSrc.persistent] := rfl

/-- C5: running `init` (against an allocator with the 2 MiB of PSP vram)
then one frame consisting of `clear_color_depth(black, 0xFFFF)` and
`draw_array(Triangles, vertexBufferOf3Vertices)` closed by `finish`
records exactly: the one-time `init` setup, then `sceGuStart`, then the
clear-color and clear-depth operands followed by one combined clear with
both the color and depth bits set, then one draw command with count 3,
then the four-step close sequence in order — and no other commands. -/
theorem end_to_end_one_frame (black : Color32) (vt : Nat) :
    Prog.run
        ⟨[⟨[FrameOp.clearColorDepth black 0xFFFF,
            FrameOp.drawArray GuPrimitive.triangles ⟨3, vt⟩],
           ExitKind.finish⟩]⟩
        ⟨0, 2097152⟩
      = Except.ok (initCmds 0 557056 1114112
          ++ [GuCmd.guStart,
              GuCmd.guClearColor black.as_abgr,
              GuCmd.guClearDepth 0xFFFF,
              GuCmd.guClear true true,
              GuCmd.guDrawArray GuPrimitive.triangles vt 3 false BufSrc.persistent,
              GuCmd.guFinish, GuCmd.guSync,
              GuCmd.displayWaitVblankStart, GuCmd.guSwapBuffers]) := rfl

/-- C6: a transient buffer can never be read after the frame that
produced it has closed.  The program grammar is the set of client
programs the borrow checker accepts: the lifetime parameter of
`Frame::get_memory` ties every `TransientBuffer` to the frame it came
from, so a draw can only name a scratch buffer acquired earlier in the
same frame (`wfProg`).  For every such program, the stale-read scanner —
which reclaims the scratch region at each `sceGuStart` and fails on any
read of a buffer not carved by the frame currently recording — accepts
the entire trace: no execution ever reads overwritten scratch bytes of an
earlier frame. -/
theorem transient_reads_frame_scoped (p : Prog) (h : wfProg p = true) :
    noStaleReads 0 0 (framesTrace 1 p.frames) = true :=
  noStale_frames p.frames 0 0 h

/-- Witness for C6 at a concrete two-frame program that acquires and
draws from scratch memory in both frames. -/
theorem transient_reads_frame_scoped_witness :
    wfProg demoProg = true
    ∧ noStaleReads 0 0 (framesTrace 1 demoProg.frames) = true :=
  ⟨by decide, transient_reads_frame_scoped demoProg (by decide)⟩

/-- C7: state scoping is asymmetric per setting, exactly as the source
comments document it.  Running the spec-modelled GPU pipeline-state
interpreter over a frame that pushes a texture function and a shading
model and then over the `sceGuStart` of the next frame leaves the
texture-function setting in force (it persists into subsequent frames)
while the shading-model setting is back at the hardware default (it only
affects the current frame) — the two settings follow different scoping
rules, not one unified rule; within the pushing frame itself both
settings are in force. -/
theorem state_scoping_asymmetric (e cc m i : Nat) (ex : ExitKind) (s : HwPipelineState) :
    runHw s (FrameProg.trace i
        ⟨[FrameOp.setTextureFunction e cc, FrameOp.setShadingModel m], ex⟩
        ++ startFrameCmds)
      = ⟨some (e, cc), none⟩
    ∧ runHw s (startFrameCmds
        ++ opsTrace i [FrameOp.setTextureFunction e cc, FrameOp.setShadingModel m])
      = ⟨some (e, cc), some m⟩ := by
  constructor
  · cases ex <;> rfl
  · rfl

/-- C8: `init` fails — fatally, with the unrecoverable
`OutOfVideoMemory` condition — exactly when the external allocator cannot
satisfy one of its three fixed-size requests (two `Psm8888` color buffers
and one `Psm4444` depth buffer of `BUF_WIDTH × SCREEN_HEIGHT` pixels,
which collapses to the pool holding their total); and when `init`
succeeds, the whole run succeeds no matter what the frames do:
`OutOfVideoMemory` is raised only during `init`, never by any later
operation. -/
theorem init_out_of_video_memory (a : VramAllocator) (fs : List FrameProg) :
    Prog.run ⟨fs⟩ a
      = if a.used + colorBufferBytes + colorBufferBytes + depthBufferBytes ≤ a.capacity
        then Except.ok (initCmds a.used (a.used + colorBufferBytes)
                (a.used + colorBufferBytes + colorBufferBytes)
              ++ framesTrace 1 fs)
        else Except.error GfxError.outOfVideoMemory := by
  obtain ⟨u, cap⟩ := a
  have ecb : BUF_WIDTH * SCREEN_HEIGHT * TexturePixelFormat.bytes TexturePixelFormat.psm8888
      = colorBufferBytes := rfl
  have edb : BUF_WIDTH * SCREEN_HEIGHT * TexturePixelFormat.bytes TexturePixelFormat.psm4444
      = depthBufferBytes := rfl
  simp only [Prog.run, PspGfx.init, VramAllocator.allocTexturePixels,
    VramAllocator.alloc, ecb, edb]
  by_cases h1 : u + colorBufferBytes ≤ cap
  · by_cases h2 : u + colorBufferBytes + colorBufferBytes ≤ cap
    · by_cases h3 : u + colorBufferBytes + colorBufferBytes + depthBufferBytes ≤ cap
      · simp [h1, h2, h3]
      · simp [h1, h2, h3]
    · have h3 : ¬ (u + colorBufferBytes + colorBufferBytes + depthBufferBytes ≤ cap) := by
        omega
      simp [h1, h2, h3]
  · have h3 : ¬ (u + colorBufferBytes + colorBufferBytes + depthBufferBytes ≤ cap) := by
      omega
    simp [h1, h3]

/-- C9: `set_scissor` records exactly one scissor command carrying the
four integer fields of the rectangle verbatim — same values, same order,
for every rectangle, with no clamping to screen bounds or any other
transformation. -/
theorem set_scissor_verbatim (i : Nat) (r : Rect) :
    FrameOp.trace i (FrameOp.setScissor r)
      = [GuCmd.guScissor r.x r.y r.w r.h] := rfl

/-- C10: a hardware command list is open exactly while a frame (or the
setup block of `init`) is recording.  The bracketing scanner — which
fails on `sceGuStart` while a list is open or `sceGuFinish` while none is
— accepts: the `init` command sequence alone, ending closed (`init` opens
a list for its one-time configuration and fully closes it — finish, sync
wait, vblank wait, display enable — before returning); the full trace of
`init` followed by any frames, ending closed; each individual frame
trace, ending closed; and `start_frame`, which is the only operation that
reopens a list. -/
theorem cmd_list_bracketing (fbp0 fbp1 zbp i j : Nat)
    (fs : List FrameProg) (f : FrameProg) :
    listBracket false (initCmds fbp0 fbp1 zbp ++ framesTrace i fs) = some false
    ∧ listBracket false (initCmds fbp0 fbp1 zbp) = some false
    ∧ listBracket false (FrameProg.trace j f) = some false
    ∧ listBracket false startFrameCmds = some true := by
  refine ⟨?_, rfl, ?_, rfl⟩
  · show listBracket false (framesTrace i fs) = some false
    exact listBracket_frames fs i
  · have hops := listBracket_ops j f.ops true (ExitKind.cmds f.exit)
    have hexit : listBracket true (ExitKind.cmds f.exit) = some false := by
      cases f.exit <;> rfl
    calc listBracket false (FrameProg.trace j f)
        = listBracket true (opsTrace j f.ops ++ ExitKind.cmds f.exit) := rfl
      _ = some false := by rw [hops, hexit]

end PspGfxModel
